import Mathlib

/-!
DBStorageService (das/db_storage_service.go).

A shallow embedding of the badger-backed storage service of the data
availability layer: the constructor with its garbage-collection goroutine, and
the methods Read, Write, Sync and String.

The storage engine itself (package badger) is an external library.  The
namespace `badger` below holds an executable model of the part of its API the
service calls: Open, View, Update, Txn.Get, Txn.Set, Item.Value, Sync, Close
and RunValueLogGC, with the behaviour the linked version of the engine shows,
on a closed handle too.  Everything outside that namespace is translated from
the service's source.
-/

/-- Byte slices: keys and values are opaque byte sequences. -/
abbrev Bytes := List UInt8

/-- A context.Context, reduced to what the code can observe of it: whether its
Done channel is closed. -/
structure Context where
  done : Bool
  deriving DecidableEq, Repr

/-- How a call ends: it returns, it panics, or it never returns. -/
inductive Outcome (α : Type) where
  | ret (a : α)
  | panic
  | hang
  deriving DecidableEq, Repr

namespace badger

/-- Errors the engine reports.  ErrKeyNotFound is the key-absent error;
ErrEmptyKey, ErrInvalidKey and exceedsSize reject a key; ErrBlockedWrites is
the answer to a commit on a closed handle; ErrNoRewrite and ErrRejected are the
usual answers of the value-log collector; dirLocked is the failure to take the
directory lock; disk stands for any failure of the underlying storage. -/
inductive Err where
  | ErrKeyNotFound
  | ErrEmptyKey
  | ErrInvalidKey
  | exceedsSize (size : Nat)
  | ErrBlockedWrites
  | ErrNoRewrite
  | ErrRejected
  | dirLocked
  | disk (code : Nat)
  deriving DecidableEq, Repr

/-- One versioned record of the engine.  An expiresAt of 0 means the record
never expires. -/
structure Entry where
  key : Bytes
  value : Bytes
  expiresAt : Nat
  deriving DecidableEq, Repr

/-- NewEntry builds a record without expiry. -/
def NewEntry (key value : Bytes) : Entry :=
  { key := key, value := value, expiresAt := 0 }

/-- WithTTL stamps a record with an expiry, relative to the current time. -/
def Entry.WithTTL (e : Entry) (now dur : Nat) : Entry :=
  { e with expiresAt := now + dur }

/-- An engine handle.  The newest record of a key comes first in entries; now
is the wall clock in seconds the engine reads; closed tells whether Close has
run; fault is the failure, if any, the underlying storage currently answers a
commit with; stalled tells whether a commit timestamp was handed out on the
closed handle, which is never marked done. -/
structure DB where
  entries : List Entry
  now : Nat
  closed : Bool
  fault : Option Err
  stalled : Bool
  deriving DecidableEq, Repr

/-- The on-disk state of one directory: the records a previous handle left
there, and the failure, if any, an attempt to open it meets (a lock held by
another handle, corrupt files). -/
structure Dir where
  entries : List Entry
  openFault : Option Err
  deriving DecidableEq, Repr

/-- The machine the process runs on: its directories and its clock. -/
structure Host where
  dirs : String → Dir
  clock : Nat

/-- Options of an engine handle; only the directory matters here. -/
structure Options where
  dir : String
  deriving DecidableEq, Repr

/-- DefaultOptions for a directory. -/
def DefaultOptions (path : String) : Options := { dir := path }

/-- Open returns a fresh open handle over the directory, or the failure met. -/
def Open (host : Host) (opt : Options) : Except Err DB :=
  match (host.dirs opt.dir).openFault with
  | some err => .error err
  | none =>
    .ok { entries := (host.dirs opt.dir).entries, now := host.clock,
          closed := false, fault := none, stalled := false }

/-- A transaction: a snapshot of the handle, whether it may write, and the
writes it has buffered. -/
structure Txn where
  db : DB
  update : Bool
  pendingWrites : List Entry
  deriving DecidableEq, Repr

/-- The result of a successful Get. -/
structure Item where
  key : Bytes
  val : Bytes
  expiresAt : Nat
  deriving DecidableEq, Repr

/-- NewTransaction builds a transaction on the handle. -/
def DB.NewTransaction (db : DB) (update : Bool) : Txn :=
  { db := db, update := update, pendingWrites := [] }

/-- A record is expired when it carries an expiry that is not in the future. -/
def isExpired (now : Nat) (e : Entry) : Bool :=
  e.expiresAt != 0 && decide (e.expiresAt ≤ now)

/-- What Get answers for the newest record of the key: ErrKeyNotFound when it
is expired, the item otherwise. -/
def answer (now : Nat) (e : Entry) : Except Err Item :=
  if isExpired now e then .error .ErrKeyNotFound
  else .ok { key := e.key, val := e.value, expiresAt := e.expiresAt }

/-- Get looks the key up.  The empty key is rejected before anything else.  A
write buffered in an update transaction is answered from the buffer.  Otherwise
the handle is consulted, which panics when it is closed; a key with no record,
or whose newest record is expired, is reported as ErrKeyNotFound. -/
def Txn.Get (txn : Txn) (key : Bytes) : Outcome (Except Err Item) :=
  if key.length = 0 then .ret (.error .ErrEmptyKey)
  else
    match (if txn.update then txn.pendingWrites.find? (fun e => e.key == key) else none) with
    | some e => .ret (answer txn.db.now e)
    | none =>
      if txn.db.closed then .panic
      else
        match txn.db.entries.find? (fun e => e.key == key) with
        | none => .ret (.error .ErrKeyNotFound)
        | some e => .ret (answer txn.db.now e)

/-- Value hands the stored bytes to the callback; σ is the state of the
variables the callback captures. -/
def Item.Value {σ : Type} (item : Item) (fn : Bytes → σ → Outcome (σ × Option Err))
    (s : σ) : Outcome (σ × Option Err) :=
  fn item.val s

/-- The bytes of the key space the engine keeps for itself: !badger! -/
def badgerPrefixBytes : Bytes := [33, 98, 97, 100, 103, 101, 114, 33]

/-- The longest key the engine accepts. -/
def maxKeySize : Nat := 65000

/-- The checks a key goes through before a write is buffered: not empty, not in
the engine's own key space, not longer than maxKeySize. -/
def checkKey (key : Bytes) : Option Err :=
  if key.length = 0 then some .ErrEmptyKey
  else if badgerPrefixBytes.isPrefixOf key then some .ErrInvalidKey
  else if key.length > maxKeySize then some (.exceedsSize key.length)
  else none

/-- SetEntry buffers a record in the transaction, unless its key is
rejected. -/
def Txn.SetEntry (txn : Txn) (e : Entry) : Txn × Option Err :=
  match checkKey e.key with
  | some err => (txn, some err)
  | none => ({ txn with pendingWrites := e :: txn.pendingWrites }, none)

/-- Set buffers key := value, with no expiry. -/
def Txn.Set (txn : Txn) (key value : Bytes) : Txn × Option Err :=
  txn.SetEntry (NewEntry key value)

/-- Commit applies all buffered writes at once, or none of them.  With nothing
buffered it does nothing.  On a closed handle it takes a commit timestamp, is
refused with ErrBlockedWrites, and leaves the handle stalled.  On an open
handle it fails when the storage fails. -/
def Txn.Commit (txn : Txn) : DB × Option Err :=
  if txn.pendingWrites.isEmpty then (txn.db, none)
  else if txn.db.closed then ({ txn.db with stalled := true }, some .ErrBlockedWrites)
  else
    match txn.db.fault with
    | some err => (txn.db, some err)
    | none => ({ txn.db with entries := txn.pendingWrites ++ txn.db.entries }, none)

/-- View runs the callback in a read-only transaction; σ is the state of the
variables the callback captures.  Starting the transaction waits until every
commit timestamp handed out so far is marked done, which on a stalled handle
never happens.  There is no check that the handle is open. -/
def DB.View {σ : Type} (db : DB) (fn : Txn → σ → Outcome (σ × Option Err)) (s : σ) :
    Outcome (σ × Option Err) :=
  if db.stalled then .hang
  else fn (db.NewTransaction false) s

/-- Update runs the callback in a read-write transaction and commits it when
the callback returns no error; otherwise the transaction is discarded.
Starting the transaction waits as in View.  There is no check that the handle
is open. -/
def DB.Update (db : DB) (fn : Txn → Txn × Option Err) : DB × Outcome (Option Err) :=
  if db.stalled then (db, .hang)
  else
    match fn (db.NewTransaction true) with
    | (_, some err) => (db, .ret (some err))
    | (txn, none) => (txn.Commit.1, .ret txn.Commit.2)

/-- Sync has nothing to flush under the default options, where every commit is
written through: it returns nil, on a closed handle too. -/
def DB.Sync (_db : DB) : Option Err :=
  none

/-- Close releases the handle. -/
def DB.Close (db : DB) : DB × Option Err :=
  ({ db with closed := true }, db.fault)

/-- RunValueLogGC makes one pass of the value-log collector.  Whether the pass
rewrote a file (nil) or not (an error such as ErrNoRewrite) depends on the
files on disk and is given as outcome (the discard ratio only steers which
file the collector picks); the records of the handle are the same before and
after. -/
def DB.RunValueLogGC (db : DB) (outcome : Option Err) : DB × Option Err :=
  (db, outcome)

/-- Time passes: the clock the engine reads moves on by d seconds. -/
def DB.elapse (db : DB) (d : Nat) : DB :=
  { db with now := db.now + d }

end badger

open badger

/-- The service: the engine handle, the retention flag and the directory. -/
structure DBStorageService where
  db : DB
  discardAfterTimeout : Bool
  dirPath : String
  deriving DecidableEq, Repr

/-- Read fetches the value of a key inside a read-only transaction and copies
it out.  When the call returns, the first component is the returned slice (none
for nil), the second the returned error. -/
def DBStorageService.Read (dbs : DBStorageService) (_ctx : Context) (key : Bytes) :
    Outcome (Option Bytes × Option Err) :=
  dbs.db.View (fun txn ret =>
    match txn.Get key with
    | .ret (.error err) => .ret (ret, some err)
    | .ret (.ok item) => item.Value (fun val _ => .ret (some ([] ++ val), none)) ret
    | .panic => .panic
    | .hang => .hang) none

/-- Write sets key to value inside a read-write transaction.  The timeout and
the retention flag are not consulted.  The first component is the service
afterwards, the second how the call ends and, when it returns, the returned
error. -/
def DBStorageService.Write (dbs : DBStorageService) (_ctx : Context) (key value : Bytes)
    (_timeout : Nat) : DBStorageService × Outcome (Option Err) :=
  let r := dbs.db.Update (fun txn => txn.Set key value)
  ({ dbs with db := r.1 }, r.2)

/-- Sync flushes the engine. -/
def DBStorageService.Sync (dbs : DBStorageService) (_ctx : Context) : Option Err :=
  dbs.db.Sync

/-- String names the backend and its directory. -/
def DBStorageService.String (dbs : DBStorageService) : String :=
  "BadgerDB(" ++ dbs.dirPath ++ ")"

/-- Where the garbage-collection goroutine stands: blocked in the outer select
(Running); in the drain loop, about to evaluate its condition, that is to call
RunValueLogGC (Draining); inside a RunValueLogGC call (Compacting); or returned
(Stopped). -/
inductive Phase where
  | Running
  | Draining
  | Compacting
  | Stopped
  deriving DecidableEq, Repr

/-- The goroutine started by the constructor.  Besides its phase it carries
counters that only record history: how often it has called db.Close, how many
RunValueLogGC calls it has started, how many of those it started when the
context was already cancelled, and how many ticks the outer select took when
the context was already cancelled. -/
structure GCLoop where
  phase : Phase
  closes : Nat
  gcCalls : Nat
  lateCalls : Nat
  lateTicks : Nat
  deriving DecidableEq, Repr

/-- The goroutine as the go statement starts it. -/
def GCLoop.start : GCLoop :=
  { phase := .Running, closes := 0, gcCalls := 0, lateCalls := 0, lateTicks := 0 }

/-- What the constructor yields: the returned service (none for nil), the
returned error, and the goroutine it started, if any. -/
structure Started where
  service : Option DBStorageService
  err : Option Err
  loop : Option GCLoop
  deriving DecidableEq, Repr

/-- NewDBStorageService opens the engine over dirPath.  When that fails it
returns nil and the error; otherwise it starts the goroutine and returns the
service. -/
def NewDBStorageService (host : Host) (_ctx : Context) (dirPath : String)
    (discardAfterTimeout : Bool) : Started :=
  match badger.Open host (DefaultOptions dirPath) with
  | .error err => { service := none, err := some err, loop := none }
  | .ok db =>
    { service := some { db := db, discardAfterTimeout := discardAfterTimeout,
                        dirPath := dirPath },
      err := none, loop := some GCLoop.start }

/-- A running service: the context given to the constructor, the service (whose
engine handle the goroutine shares), and the goroutine. -/
structure World where
  ctx : Context
  dbs : DBStorageService
  loop : GCLoop
  deriving DecidableEq, Repr

/-- The world a successful construction leaves behind. -/
def boot (host : Host) (ctx : Context) (dirPath : String) (discardAfterTimeout : Bool) :
    Option World :=
  match (NewDBStorageService host ctx dirPath discardAfterTimeout).service,
        (NewDBStorageService host ctx dirPath discardAfterTimeout).loop with
  | some dbs, some l => some { ctx := ctx, dbs := dbs, loop := l }
  | _, _ => none

/-- What can happen to a running service.  cancel: the constructor's context is
cancelled.  tick: the outer select takes the ticker case.  done: the outer
select takes the ctx.Done case.  call: the drain loop evaluates its condition
and so starts a RunValueLogGC call.  gc: the call in flight returns the given
outcome and, when that is nil, the inner select runs.  write: a caller's Write.
elapse: time passes.  fault: the storage starts or stops failing.  (Read and
Sync change nothing and are observed on the state.) -/
inductive Event where
  | cancel
  | tick
  | done
  | call
  | gc (outcome : Option Err)
  | write (ctx : Context) (key value : Bytes) (timeout : Nat)
  | elapse (d : Nat)
  | fault (f : Option Err)
  deriving DecidableEq, Repr

/-- The goroutine returns: the deferred db.Close runs and its error is
dropped. -/
def World.exit (w : World) : World :=
  { w with
      dbs := { w.dbs with db := w.dbs.db.Close.1 },
      loop := { w.loop with phase := .Stopped, closes := w.loop.closes + 1 } }

/-- One event.  An event that cannot happen in the current phase leaves the
world as it is.  In the goroutine, the ticker case of the outer select enters
the drain loop; the loop condition calls RunValueLogGC; an error outcome
falsifies the condition and leads back to the outer select; a nil outcome runs
the loop body, whose select returns when ctx.Done is ready and otherwise falls
through the default case to the loop condition; the ctx.Done case of the outer
select returns.  Every return runs the deferred Close.  The cancellation can
fall between any two of these steps. -/
def World.step (w : World) : Event → World
  | .cancel => { w with ctx := { done := true } }
  | .tick =>
    match w.loop.phase with
    | .Running =>
      { w with loop := { w.loop with
          phase := .Draining,
          lateTicks := w.loop.lateTicks + (if w.ctx.done then 1 else 0) } }
    | _ => w
  | .done =>
    match w.loop.phase with
    | .Running => if w.ctx.done then w.exit else w
    | _ => w
  | .call =>
    match w.loop.phase with
    | .Draining =>
      { w with loop := { w.loop with
          phase := .Compacting,
          gcCalls := w.loop.gcCalls + 1,
          lateCalls := w.loop.lateCalls + (if w.ctx.done then 1 else 0) } }
    | _ => w
  | .gc outcome =>
    match w.loop.phase with
    | .Compacting =>
      match (w.dbs.db.RunValueLogGC outcome).2 with
      | some _ =>
        { w with dbs := { w.dbs with db := (w.dbs.db.RunValueLogGC outcome).1 },
                 loop := { w.loop with phase := .Running } }
      | none =>
        if w.ctx.done then
          World.exit { w with dbs := { w.dbs with db := (w.dbs.db.RunValueLogGC outcome).1 } }
        else
          { w with dbs := { w.dbs with db := (w.dbs.db.RunValueLogGC outcome).1 },
                   loop := { w.loop with phase := .Draining } }
    | _ => w
  | .write ctx key value timeout => { w with dbs := (w.dbs.Write ctx key value timeout).1 }
  | .elapse d => { w with dbs := { w.dbs with db := w.dbs.db.elapse d } }
  | .fault f => { w with dbs := { w.dbs with db := { w.dbs.db with fault := f } } }

/-- Whether the event can happen in the current phase. -/
def World.enabled (w : World) : Event → Bool
  | .tick => w.loop.phase == .Running
  | .done => w.loop.phase == .Running && w.ctx.done
  | .call => w.loop.phase == .Draining
  | .gc _ => w.loop.phase == .Compacting
  | _ => true

/-- A run: the events happen one after the other. -/
def World.run (w : World) (es : List Event) : World :=
  es.foldl World.step w

/-- Whether every event of the run can happen when its turn comes. -/
def World.feasible (w : World) : List Event → Bool
  | [] => true
  | e :: es => w.enabled e && (w.step e).feasible es

/-- A host with one empty directory everywhere and the clock at 1000. -/
def emptyHost : Host :=
  { dirs := fun _ => { entries := [], openFault := none }, clock := 1000 }

/-- A host whose directories hold the record (k1, v1) an earlier handle wrote. -/
def usedHost : Host :=
  { dirs := fun _ => { entries := [NewEntry [107, 49] [118, 49]], openFault := none },
    clock := 1000 }

/-- A host whose directories are all locked by another handle. -/
def lockedHost : Host :=
  { dirs := fun _ => { entries := [], openFault := some .dirLocked }, clock := 1000 }

/-- The service over an empty directory, as the constructor returns it. -/
def freshService (discardAfterTimeout : Bool) : DBStorageService :=
  { db := { entries := [], now := 1000, closed := false, fault := none, stalled := false },
    discardAfterTimeout := discardAfterTimeout, dirPath := "/tmp/das" }

/-- The world right after a successful construction over an empty directory. -/
def freshWorld (discardAfterTimeout : Bool) : World :=
  { ctx := { done := false }, dbs := freshService discardAfterTimeout, loop := GCLoop.start }

/-- The service after a Write of (k1, v1), the cancellation and the goroutine's
return: its handle is closed. -/
def closedService : DBStorageService :=
  ((freshWorld false).run [.write ⟨false⟩ [107, 49] [118, 49] 0, .cancel, .done]).dbs

/-- The number of tick events of a run that come after the cancellation; the
flag tells whether the context is already cancelled when the run begins. -/
def ticksAfterCancel : Bool → List Event → Nat
  | _, [] => 0
  | _, .cancel :: es => ticksAfterCancel true es
  | d, .tick :: es => (if d then 1 else 0) + ticksAfterCancel d es
  | d, _ :: es => ticksAfterCancel d es

/-- What holds of every world a construction can lead to: before the goroutine
has returned the handle is open, not stalled, and was never closed; once it has
returned the handle is closed, was closed once, and the context is cancelled;
before the cancellation no call and no tick counts as late; and the calls
started under a cancelled context, together with the one the drain loop is
about to start, are at most one more than the ticks taken under a cancelled
context. -/
def World.Sound (w : World) : Prop :=
  (w.loop.phase ≠ .Stopped →
    w.loop.closes = 0 ∧ w.dbs.db.closed = false ∧ w.dbs.db.stalled = false) ∧
  (w.loop.phase = .Stopped →
    w.loop.closes = 1 ∧ w.dbs.db.closed = true ∧ w.ctx.done = true) ∧
  (w.ctx.done = false → w.loop.lateCalls = 0 ∧ w.loop.lateTicks = 0) ∧
  w.loop.lateCalls + (if w.loop.phase = .Draining ∧ w.ctx.done = true then 1 else 0)
    ≤ w.loop.lateTicks + 1

/-- The rest of a drain once its first call is in flight: n times a nil outcome
and the next call, then the error. -/
def retries (err : Err) : Nat → List Event
  | 0 => [.gc (some err)]
  | n + 1 => .gc none :: .call :: retries err n

/-- A drain of n successful passes ended by a failing one, as the events of a
run: the tick, the first call, and the retries. -/
def drain (n : Nat) (err : Err) : List Event :=
  .tick :: .call :: retries err n

/-! ## Write and Read on one handle -/

/-- A key that passes the checks is not empty. -/
theorem badger.checkKey_length (k : Bytes) (h : checkKey k = none) : k.length ≠ 0 := by
  intro hk
  simp [checkKey, hk] at h

/-- What Write does, case by case: on a stalled handle it hangs; a rejected key
is reported and nothing changes; on a closed handle the commit is refused and
leaves the handle stalled; on an open handle a failing storage is reported and
nothing changes; otherwise the record is put in front. -/
theorem DBStorageService.Write_eq (dbs : DBStorageService) (ctx : Context) (k v : Bytes)
    (t : Nat) :
    dbs.Write ctx k v t =
      if dbs.db.stalled then (dbs, .hang)
      else match checkKey k with
        | some err => (dbs, .ret (some err))
        | none =>
          if dbs.db.closed then
            ({ dbs with db := { dbs.db with stalled := true } }, .ret (some .ErrBlockedWrites))
          else match dbs.db.fault with
            | some err => (dbs, .ret (some err))
            | none =>
              ({ dbs with db := { dbs.db with entries := NewEntry k v :: dbs.db.entries } },
                .ret none) := by
  obtain ⟨⟨entries, now, closed, fault, stalled⟩, flag, path⟩ := dbs
  cases stalled <;> cases hk : checkKey k <;> cases closed <;> cases fault <;>
    simp [DBStorageService.Write, DB.Update, Txn.Set, Txn.SetEntry, Txn.Commit,
      DB.NewTransaction, NewEntry, hk]

/-- What Read does: on a stalled handle it hangs; otherwise it ends as Get
ends, the error passed on or the value copied. -/
theorem DBStorageService.Read_eq (dbs : DBStorageService) (ctx : Context) (k : Bytes) :
    dbs.Read ctx k =
      if dbs.db.stalled then .hang
      else match (dbs.db.NewTransaction false).Get k with
        | .ret (.error err) => .ret (none, some err)
        | .ret (.ok item) => .ret (some item.val, none)
        | .panic => .panic
        | .hang => .hang := by
  unfold DBStorageService.Read DB.View
  split
  · rfl
  · rcases h : (dbs.db.NewTransaction false).Get k with (_ | _) | _ | _ <;>
      simp [Item.Value, h]

/-- Write never opens or closes the handle. -/
theorem DBStorageService.Write_closed (dbs : DBStorageService) (ctx : Context) (k v : Bytes)
    (t : Nat) : (dbs.Write ctx k v t).1.db.closed = dbs.db.closed := by
  rw [DBStorageService.Write_eq]
  split
  · rfl
  · split
    · rfl
    · split
      · rfl
      · split <;> rfl

/-- Write leaves an open handle that is not stalled not stalled. -/
theorem DBStorageService.Write_stalled (dbs : DBStorageService) (ctx : Context) (k v : Bytes)
    (t : Nat) (hc : dbs.db.closed = false) (hs : dbs.db.stalled = false) :
    (dbs.Write ctx k v t).1.db.stalled = false := by
  rw [DBStorageService.Write_eq]
  obtain ⟨⟨entries, now, closed, fault, stalled⟩, flag, path⟩ := dbs
  simp only at hc hs
  subst hc hs
  cases checkKey k <;> cases fault <;> simp

/-- Get on a read-only transaction of an open handle whose newest record is a
never-expiring record of the (non-empty) key returns that record. -/
theorem badger.Txn.Get_newest (db : DB) (k v : Bytes) (rest : List Entry)
    (hk : k.length ≠ 0) (hc : db.closed = false) (hdb : db.entries = NewEntry k v :: rest) :
    (db.NewTransaction false).Get k
      = .ret (.ok { key := k, val := v, expiresAt := 0 }) := by
  simp [Txn.Get, DB.NewTransaction, hdb, NewEntry, hk, hc, answer, isExpired]

/-- C1: round trip.  For every handle state, key, value and timeout, when Write
returns no error, a Read of the same key on the resulting state returns exactly
the value written and no error, whatever contexts the two calls are given. -/
theorem write_then_read (dbs : DBStorageService) (ctx ctx' : Context) (k v : Bytes) (t : Nat)
    (h : (dbs.Write ctx k v t).2 = .ret none) :
    (dbs.Write ctx k v t).1.Read ctx' k = .ret (some v, none) := by
  obtain ⟨⟨entries, now, closed, fault, stalled⟩, flag, path⟩ := dbs
  rw [DBStorageService.Write_eq] at h ⊢
  cases stalled with
  | true => simp at h
  | false =>
    cases hk : checkKey k with
    | some err => simp [hk] at h
    | none =>
      cases closed with
      | true => simp [hk] at h
      | false =>
        cases fault with
        | some err => simp [hk] at h
        | none =>
          simp only [Bool.false_eq_true, if_false]
          rw [DBStorageService.Read_eq]
          simp only [Bool.false_eq_true, if_false]
          rw [badger.Txn.Get_newest _ k v entries (badger.checkKey_length k hk) rfl rfl]

/-- The scenario of the specification: on a fresh handle, writing v1 under k1
with timeout 0 succeeds and reading k1 returns v1. -/
theorem write_then_read_witness :
    ((freshService false).Write ⟨false⟩ [107, 49] [118, 49] 0).2 = .ret none ∧
    ((freshService false).Write ⟨false⟩ [107, 49] [118, 49] 0).1.Read ⟨false⟩ [107, 49]
      = .ret (some [118, 49], none) :=
  ⟨by decide, write_then_read (freshService false) ⟨false⟩ ⟨false⟩ [107, 49] [118, 49] 0
    (by decide)⟩

/-- C5, as stated for every handle state, fails on a closed handle.  After a
Write, the cancellation and the goroutine's return the handle is closed; a
further Write returns an error (the commit is refused), and yet the Read of k1,
which panicked before that Write, hangs after it. -/
theorem failed_write_changes_read :
    boot emptyHost ⟨false⟩ "/tmp/das" false = some (freshWorld false) ∧
    (freshWorld false).feasible [.write ⟨false⟩ [107, 49] [118, 49] 0, .cancel, .done]
      = true ∧
    closedService.db.closed = true ∧
    (closedService.Write ⟨false⟩ [107, 50] [118, 50] 0).2 = .ret (some .ErrBlockedWrites) ∧
    closedService.Read ⟨false⟩ [107, 49] = .panic ∧
    (closedService.Write ⟨false⟩ [107, 50] [118, 50] 0).1.Read ⟨false⟩ [107, 49] = .hang := by
  decide

/-- C5, amended to an open handle in its error half.  For every handle state:
when Write returns no error, the handle was open and the engine transaction
holding exactly the record (k, v) committed: its Commit returned no error and
produced the state Write leaves.  On an open handle: when Write returns an
error, the service is left as it was, so every Read of every key ends as it
ended before. -/
theorem write_all_or_nothing (dbs : DBStorageService) (ctx : Context) (k v : Bytes) (t : Nat) :
    ((dbs.Write ctx k v t).2 = .ret none →
      dbs.db.closed = false ∧
      Txn.Commit { db := dbs.db, update := true, pendingWrites := [NewEntry k v] }
        = ((dbs.Write ctx k v t).1.db, none)) ∧
    (dbs.db.closed = false → ∀ err, (dbs.Write ctx k v t).2 = .ret (some err) →
      (dbs.Write ctx k v t).1 = dbs ∧
      ∀ (c : Context) (k' : Bytes), (dbs.Write ctx k v t).1.Read c k' = dbs.Read c k') := by
  obtain ⟨⟨entries, now, closed, fault, stalled⟩, flag, path⟩ := dbs
  rw [DBStorageService.Write_eq]
  cases stalled <;> cases hk : checkKey k <;> cases closed <;> cases fault <;>
    simp [hk, Txn.Commit]

/-- A write that succeeds and two that fail on an open handle (empty key,
failing storage): the first commits, the others leave every Read as it was. -/
theorem write_all_or_nothing_witness :
    (Txn.Commit { db := (freshService false).db, update := true,
                  pendingWrites := [NewEntry [107] [118]] }
      = (((freshService false).Write ⟨false⟩ [107] [118] 0).1.db, none)) ∧
    (((freshService false).Write ⟨false⟩ [] [118] 0).1 = freshService false) ∧
    (({ freshService false with db := { (freshService false).db with fault := some (.disk 5) } }
        : DBStorageService).Write ⟨false⟩ [107] [118] 0).1.Read ⟨false⟩ [107]
      = .ret (none, some .ErrKeyNotFound) :=
  ⟨((write_all_or_nothing (freshService false) ⟨false⟩ [107] [118] 0).1 (by decide)).2,
   ((write_all_or_nothing (freshService false) ⟨false⟩ [] [118] 0).2 (by decide) .ErrEmptyKey
      (by decide)).1,
   by
    rw [((write_all_or_nothing _ ⟨false⟩ [107] [118] 0).2 (by decide) (.disk 5)
      (by decide)).2]
    decide⟩

/-- C10: Write does not depend on the retention inputs.  For every handle
state, key and value, any two timeouts, any two call contexts and both values
of the retention flag, Write returns the same error and leaves the same engine
state; the flag itself is left as it was; and every record of the resulting
state is either a record that was there before or the record (k, v) with no
expiry. -/
theorem write_ignores_retention (db : DB) (path : String) (c1 c2 : Context) (k v : Bytes)
    (t1 t2 : Nat) (f1 f2 : Bool) :
    ((⟨db, f1, path⟩ : DBStorageService).Write c1 k v t1).2
      = ((⟨db, f2, path⟩ : DBStorageService).Write c2 k v t2).2 ∧
    ((⟨db, f1, path⟩ : DBStorageService).Write c1 k v t1).1.db
      = ((⟨db, f2, path⟩ : DBStorageService).Write c2 k v t2).1.db ∧
    ((⟨db, f1, path⟩ : DBStorageService).Write c1 k v t1).1.discardAfterTimeout = f1 ∧
    (∀ e ∈ ((⟨db, f1, path⟩ : DBStorageService).Write c1 k v t1).1.db.entries,
      e ∈ db.entries ∨ e = { key := k, value := v, expiresAt := 0 }) := by
  simp only [DBStorageService.Write_eq]
  obtain ⟨entries, now, closed, fault, stalled⟩ := db
  cases stalled <;> cases hk : checkKey k <;> cases closed <;> cases fault <;>
    simp [hk, NewEntry] <;> tauto

/-- With the flag set and a timeout of one hour, Write on a fresh handle
returns the same and leaves the same engine state as with the flag clear and no
timeout, and the flag stays set. -/
theorem write_ignores_retention_witness :
    ((freshService true).Write ⟨false⟩ [107] [118] 3600).2
      = ((freshService false).Write ⟨true⟩ [107] [118] 0).2 ∧
    ((freshService true).Write ⟨false⟩ [107] [118] 3600).1.db
      = ((freshService false).Write ⟨true⟩ [107] [118] 0).1.db ∧
    ((freshService true).Write ⟨false⟩ [107] [118] 3600).1.discardAfterTimeout = true :=
  ⟨(write_ignores_retention (freshService true).db "/tmp/das" ⟨false⟩ ⟨true⟩ [107] [118]
      3600 0 true false).1,
   (write_ignores_retention (freshService true).db "/tmp/das" ⟨false⟩ ⟨true⟩ [107] [118]
      3600 0 true false).2.1,
   (write_ignores_retention (freshService true).db "/tmp/das" ⟨false⟩ ⟨true⟩ [107] [118]
      3600 0 true false).2.2.1⟩

/-- C8: construction has no partial mode.  When opening the engine fails, the
constructor returns nil together with exactly the engine's error and starts no
goroutine; when it succeeds, it returns the service holding that (open) engine
handle, the directory path and the flag, returns no error, and starts the
goroutine in its initial state. -/
theorem construction_all_or_nothing (host : Host) (ctx : Context) (dirPath : String)
    (flag : Bool) :
    match badger.Open host (DefaultOptions dirPath) with
    | .error err =>
      NewDBStorageService host ctx dirPath flag
        = { service := none, err := some err, loop := none }
    | .ok db =>
      NewDBStorageService host ctx dirPath flag
        = { service := some { db := db, discardAfterTimeout := flag, dirPath := dirPath },
            err := none, loop := some GCLoop.start } ∧
      db.closed = false := by
  unfold NewDBStorageService
  cases h : badger.Open host (DefaultOptions dirPath) with
  | error err => simp
  | ok db =>
    simp only [true_and]
    unfold badger.Open at h
    split at h
    · cases h
    · cases h; rfl

/-- Both outcomes of the construction: over a locked directory nil, the lock
error and no goroutine; over an empty directory the service, no error and the
goroutine. -/
theorem construction_all_or_nothing_witness :
    NewDBStorageService lockedHost ⟨false⟩ "/tmp/das" true
      = { service := none, err := some .dirLocked, loop := none } ∧
    NewDBStorageService emptyHost ⟨false⟩ "/tmp/das" true
      = { service := some (freshService true), err := none, loop := some GCLoop.start } :=
  ⟨construction_all_or_nothing lockedHost ⟨false⟩ "/tmp/das" true,
   (construction_all_or_nothing emptyHost ⟨false⟩ "/tmp/das" true).1⟩

/-! ## The goroutine and the running service -/

/-- A successful construction leaves the world described by the constructor:
the given context, the service over a freshly opened handle holding the records
of the directory, and the goroutine at its start. -/
theorem boot_eq (host : Host) (ctx : Context) (dirPath : String) (flag : Bool) (w : World)
    (h : boot host ctx dirPath flag = some w) :
    w = { ctx := ctx,
          dbs := { db := { entries := (host.dirs dirPath).entries, now := host.clock,
                           closed := false, fault := none, stalled := false },
                   discardAfterTimeout := flag, dirPath := dirPath },
          loop := GCLoop.start } := by
  unfold boot NewDBStorageService badger.Open DefaultOptions at h
  cases hf : (host.dirs dirPath).openFault with
  | some err => simp [hf] at h
  | none =>
    simp [hf] at h
    exact h.symm

/-- The world after construction is sound. -/
theorem boot_sound (host : Host) (ctx : Context) (dirPath : String) (flag : Bool) (w : World)
    (h : boot host ctx dirPath flag = some w) : w.Sound := by
  rw [boot_eq host ctx dirPath flag w h]
  simp [World.Sound, GCLoop.start]

/-- Every event keeps a sound world sound. -/
theorem World.step_sound (w : World) (e : Event) (h : w.Sound) : (w.step e).Sound := by
  obtain ⟨h1, h2, h3, h4⟩ := h
  cases e with
  | cancel =>
    refine ⟨h1, fun hp => ?_, fun hd => absurd hd (by simp [World.step]), ?_⟩
    · obtain ⟨a, b, _⟩ := h2 hp
      exact ⟨a, b, rfl⟩
    · by_cases hd : w.ctx.done = true
      · simpa [World.step, hd] using h4
      · have := h3 (by simpa using hd)
        simp only [World.step]
        split <;> omega
  | tick =>
    cases hp : w.loop.phase with
    | Running =>
      have ho := h1 (by simp [hp])
      by_cases hd : w.ctx.done = true
      · simp [hp, hd] at h4
        simp [World.step, hp, hd, World.Sound, ho.1, ho.2.1, ho.2.2]
        omega
      · have := h3 (by simpa using hd)
        simp [World.step, hp, hd, World.Sound, ho.1, ho.2.1, ho.2.2, this.1, this.2]
    | Draining => simp only [World.step, hp]; exact ⟨h1, h2, h3, h4⟩
    | Compacting => simp only [World.step, hp]; exact ⟨h1, h2, h3, h4⟩
    | Stopped => simp only [World.step, hp]; exact ⟨h1, h2, h3, h4⟩
  | done =>
    cases hp : w.loop.phase with
    | Running =>
      have ho := h1 (by simp [hp])
      by_cases hd : w.ctx.done = true
      · simp [hp, hd] at h4
        simp [World.step, hp, hd, World.exit, World.Sound, DB.Close, ho.1]
        omega
      · simp only [World.step, hp, hd]; exact ⟨h1, h2, h3, h4⟩
    | Draining => simp only [World.step, hp]; exact ⟨h1, h2, h3, h4⟩
    | Compacting => simp only [World.step, hp]; exact ⟨h1, h2, h3, h4⟩
    | Stopped => simp only [World.step, hp]; exact ⟨h1, h2, h3, h4⟩
  | call =>
    cases hp : w.loop.phase with
    | Draining =>
      have ho := h1 (by simp [hp])
      by_cases hd : w.ctx.done = true
      · simp [hp, hd] at h4
        simp [World.step, hp, hd, World.Sound, ho.1, ho.2.1, ho.2.2]
        omega
      · have := h3 (by simpa using hd)
        simp [World.step, hp, hd, World.Sound, ho.1, ho.2.1, ho.2.2, this.1, this.2]
    | Running => simp only [World.step, hp]; exact ⟨h1, h2, h3, h4⟩
    | Compacting => simp only [World.step, hp]; exact ⟨h1, h2, h3, h4⟩
    | Stopped => simp only [World.step, hp]; exact ⟨h1, h2, h3, h4⟩
  | gc outcome =>
    cases hp : w.loop.phase with
    | Compacting =>
      have ho := h1 (by simp [hp])
      by_cases hd : w.ctx.done = true
      · simp [hp, hd] at h4
        cases outcome with
        | some err =>
          simp [World.step, hp, hd, DB.RunValueLogGC, World.Sound, ho.1, ho.2.1, ho.2.2]
          omega
        | none =>
          simp [World.step, hp, hd, DB.RunValueLogGC, World.exit, World.Sound, DB.Close,
            ho.1]
          omega
      · have := h3 (by simpa using hd)
        cases outcome with
        | some err =>
          simp [World.step, hp, hd, DB.RunValueLogGC, World.Sound, ho.1, ho.2.1, ho.2.2,
            this.1, this.2]
        | none =>
          simp [World.step, hp, hd, DB.RunValueLogGC, World.Sound, ho.1, ho.2.1, ho.2.2,
            this.1, this.2]
    | Running => simp only [World.step, hp]; exact ⟨h1, h2, h3, h4⟩
    | Draining => simp only [World.step, hp]; exact ⟨h1, h2, h3, h4⟩
    | Stopped => simp only [World.step, hp]; exact ⟨h1, h2, h3, h4⟩
  | write c k v t =>
    refine ⟨fun hp => ?_, fun hp => ?_, h3, h4⟩
    · obtain ⟨a, b, d⟩ := h1 hp
      refine ⟨a, ?_, ?_⟩
      · simp only [World.step, DBStorageService.Write_closed]; exact b
      · exact DBStorageService.Write_stalled _ c k v t b d
    · obtain ⟨a, b, d⟩ := h2 hp
      refine ⟨a, ?_, d⟩
      simp only [World.step, DBStorageService.Write_closed]; exact b
  | elapse d => exact ⟨h1, h2, h3, h4⟩
  | fault f => exact ⟨h1, h2, h3, h4⟩

/-- Every run keeps a sound world sound. -/
theorem World.run_sound (es : List Event) : ∀ (w : World), w.Sound → (w.run es).Sound := by
  induction es with
  | nil => intro w h; exact h
  | cons e es ih => intro w h; exact ih (w.step e) (w.step_sound e h)

/-- Once the goroutine has returned, no event changes its record: no call, no
close. -/
theorem World.step_stopped (w : World) (e : Event) (h : w.loop.phase = .Stopped) :
    (w.step e).loop = w.loop := by
  cases e <;> simp [World.step, h]

/-- Once the goroutine has returned, no run changes its record. -/
theorem World.run_stopped (es : List Event) :
    ∀ (w : World), w.loop.phase = .Stopped → (w.run es).loop = w.loop := by
  induction es with
  | nil => intro w _; rfl
  | cons e es ih =>
    intro w h
    have hs := w.step_stopped e h
    have : (w.step e).loop.phase = .Stopped := by rw [hs]; exact h
    exact (ih (w.step e) this).trans hs

/-- The goroutine returns only by taking the ctx.Done case of the outer select
or by seeing the context cancelled after a successful pass. -/
theorem World.step_into_stopped (w : World) (e : Event) (h : w.loop.phase ≠ .Stopped)
    (h' : (w.step e).loop.phase = .Stopped) :
    w.ctx.done = true ∧ (e = .done ∨ e = .gc none) := by
  cases e with
  | cancel => exact absurd h' h
  | tick =>
    cases hp : w.loop.phase <;> simp [World.step, hp] at h'
    exact absurd hp h
  | done =>
    cases hp : w.loop.phase with
    | Running =>
      by_cases hd : w.ctx.done = true
      · exact ⟨hd, Or.inl rfl⟩
      · simp [World.step, hp, hd] at h'
    | Draining => simp [World.step, hp] at h'
    | Compacting => simp [World.step, hp] at h'
    | Stopped => exact absurd hp h
  | call =>
    cases hp : w.loop.phase <;> simp [World.step, hp] at h'
    exact absurd hp h
  | gc outcome =>
    cases hp : w.loop.phase with
    | Compacting =>
      cases outcome with
      | some err => simp [World.step, hp, DB.RunValueLogGC] at h'
      | none =>
        by_cases hd : w.ctx.done = true
        · exact ⟨hd, Or.inr rfl⟩
        · simp [World.step, hp, hd, DB.RunValueLogGC] at h'
    | Running => simp [World.step, hp] at h'
    | Draining => simp [World.step, hp] at h'
    | Stopped => exact absurd hp h
  | write c k v t => exact absurd h' h
  | elapse d => exact absurd h' h
  | fault f => exact absurd h' h

/-- C6: the goroutine closes the handle exactly once, and only on stopping.
In every run from a successful construction: while the goroutine is Running or
Compacting (or between two passes of a drain) the handle has been closed zero
times and is open; when it is Stopped the handle has been closed exactly once,
is closed, and the context is cancelled; the step into Stopped is taken only
with the context cancelled, by the ctx.Done case of the outer select or by the
check after a successful pass; and after Stopped nothing changes the
goroutine's record, so no reclamation call and no second close follow. -/
theorem gc_loop_closes_exactly_once (host : Host) (ctx : Context) (dirPath : String)
    (flag : Bool) (w : World) (hboot : boot host ctx dirPath flag = some w)
    (es : List Event) :
    ((w.run es).loop.phase ≠ .Stopped →
      (w.run es).loop.closes = 0 ∧ (w.run es).dbs.db.closed = false) ∧
    ((w.run es).loop.phase = .Stopped →
      (w.run es).loop.closes = 1 ∧ (w.run es).dbs.db.closed = true ∧
      (w.run es).ctx.done = true) ∧
    (∀ e, (w.run es).loop.phase ≠ .Stopped → ((w.run es).step e).loop.phase = .Stopped →
      (w.run es).ctx.done = true ∧ (e = .done ∨ e = .gc none)) ∧
    (∀ es', (w.run es).loop.phase = .Stopped →
      ((w.run es).run es').loop = (w.run es).loop) := by
  have hs := World.run_sound es w (boot_sound host ctx dirPath flag w hboot)
  exact ⟨fun h => ⟨(hs.1 h).1, (hs.1 h).2.1⟩, hs.2.1,
    fun e h h' => World.step_into_stopped _ e h h',
    fun es' h => World.run_stopped es' _ h⟩

/-- A run that stops: construction, a tick, a successful pass, the
cancellation, a second successful pass.  The handle is closed once, and a later
tick starts no call. -/
theorem gc_loop_closes_exactly_once_witness :
    ((freshWorld false).run [.tick, .call, .gc none, .call, .cancel, .gc none]).loop.closes
      = 1 ∧
    ((freshWorld false).run
      [.tick, .call, .gc none, .call, .cancel, .gc none]).dbs.db.closed = true ∧
    ((freshWorld false).run [.tick, .call, .gc none, .call, .cancel, .gc none]).ctx.done
      = true ∧
    (((freshWorld false).run [.tick, .call, .gc none, .call, .cancel, .gc none]).run
        [.tick, .call]).loop
      = ((freshWorld false).run [.tick, .call, .gc none, .call, .cancel, .gc none]).loop :=
  ⟨((gc_loop_closes_exactly_once emptyHost ⟨false⟩ "/tmp/das" false (freshWorld false)
      (by decide) [.tick, .call, .gc none, .call, .cancel, .gc none]).2.1 (by decide)).1,
   ((gc_loop_closes_exactly_once emptyHost ⟨false⟩ "/tmp/das" false (freshWorld false)
      (by decide) [.tick, .call, .gc none, .call, .cancel, .gc none]).2.1 (by decide)).2.1,
   ((gc_loop_closes_exactly_once emptyHost ⟨false⟩ "/tmp/das" false (freshWorld false)
      (by decide) [.tick, .call, .gc none, .call, .cancel, .gc none]).2.1 (by decide)).2.2,
   (gc_loop_closes_exactly_once emptyHost ⟨false⟩ "/tmp/das" false (freshWorld false)
      (by decide) [.tick, .call, .gc none, .call, .cancel, .gc none]).2.2.2 [.tick, .call]
      (by decide)⟩

/-- An event other than the cancellation leaves the context as it is. -/
theorem World.step_ctx (w : World) (e : Event) (he : e ≠ .cancel) : (w.step e).ctx = w.ctx := by
  cases e with
  | cancel => exact absurd rfl he
  | tick => cases hp : w.loop.phase <;> simp [World.step, hp]
  | done =>
    cases hp : w.loop.phase <;> by_cases hd : w.ctx.done = true <;>
      simp [World.step, hp, hd, World.exit]
  | call => cases hp : w.loop.phase <;> simp [World.step, hp]
  | gc outcome =>
    cases hp : w.loop.phase <;> cases outcome <;> by_cases hd : w.ctx.done = true <;>
      simp [World.step, hp, hd, World.exit, DB.RunValueLogGC]
  | write c k v t => rfl
  | elapse d => rfl
  | fault f => rfl

/-- Without a cancel event the context stays as it is. -/
theorem World.run_ctx (es : List Event) :
    ∀ (w : World), Event.cancel ∉ es → (w.run es).ctx = w.ctx := by
  induction es with
  | nil => intro w _; rfl
  | cons e es ih =>
    intro w h
    have he : e ≠ Event.cancel := fun heq => h (heq ▸ List.mem_cons_self _ _)
    have hes : Event.cancel ∉ es := fun hm => h (List.mem_cons_of_mem _ hm)
    exact (ih (w.step e) hes).trans (w.step_ctx e he)

/-- The retries of a drain: from inside a pass, with the context not cancelled,
n successful passes and a failing one make n further calls and end in Running,
with nothing closed and the service untouched. -/
theorem World.run_retries (err : Err) (n : Nat) :
    ∀ (w : World), w.loop.phase = .Compacting → w.ctx.done = false →
      (w.run (retries err n)).loop
        = { w.loop with phase := .Running, gcCalls := w.loop.gcCalls + n } ∧
      (w.run (retries err n)).dbs = w.dbs := by
  induction n with
  | zero =>
    intro w hp _
    simp [retries, World.run, World.step, hp, DB.RunValueLogGC]
  | succ n ih =>
    intro w hp hd
    have hstep : (w.step (.gc none)).step .call
        = { w with loop := { w.loop with gcCalls := w.loop.gcCalls + 1 } } := by
      obtain ⟨c, d, l⟩ := w
      obtain ⟨ph, a, b, e, f⟩ := l
      simp only at hp hd
      subst hp
      simp [World.step, hd, DB.RunValueLogGC]
    have hrun : w.run (retries err (n + 1))
        = ((w.step (.gc none)).step .call).run (retries err n) := by
      simp [World.run, retries]
    rw [hrun, hstep]
    obtain ⟨h1, h2⟩ := ih { w with loop := { w.loop with gcCalls := w.loop.gcCalls + 1 } } hp hd
    rw [h1, h2]
    simp [Nat.add_assoc, Nat.add_comm 1 n]

/-- C9, as stated, fails in its retry clause: the drain does not go on for as
long as the passes succeed, since the check after each successful pass returns
once the context is cancelled.  In this run from a fresh construction every
event can happen in its turn; one call is in flight when the context is
cancelled; that call succeeds; and the goroutine is Stopped with still one call
made, the handle closed. -/
theorem cancelled_drain_ends_on_success :
    boot emptyHost ⟨false⟩ "/tmp/das" false = some (freshWorld false) ∧
    (freshWorld false).feasible [.tick, .call, .cancel, .gc none] = true ∧
    ((freshWorld false).run [.tick, .call, .cancel]).loop.phase = .Compacting ∧
    ((freshWorld false).run [.tick, .call, .cancel]).loop.gcCalls = 1 ∧
    ((freshWorld false).run [.tick, .call, .cancel, .gc none]).loop.phase = .Stopped ∧
    ((freshWorld false).run [.tick, .call, .cancel, .gc none]).loop.gcCalls = 1 ∧
    ((freshWorld false).run [.tick, .call, .cancel, .gc none]).dbs.db.closed = true := by
  decide

/-- C9, amended: a reclamation error is not fatal, and the drain retries while
the passes succeed and the context is not cancelled.  In every run from a
successful construction: (1) when a pass returns an error the goroutine is back
in Running, the handle is open and was never closed, no further call is
started, and the service is exactly as before, so no Read, Write or Sync sees
the error; (2) when a pass succeeds and the context is not cancelled, the
goroutine is back at the loop condition, which starts the next pass; (3) a
whole drain, a tick followed by n successful passes and a failing one with no
cancellation, makes exactly n + 1 calls and ends in Running with the service
untouched; (4) if the context is not cancelled at construction and no
cancellation occurs in the run, the goroutine is not Stopped; (5) when a pass
succeeds and the context is cancelled, the goroutine is Stopped and no further
call has been started. -/
theorem gc_error_not_fatal (host : Host) (ctx : Context) (dirPath : String)
    (flag : Bool) (w : World) (hboot : boot host ctx dirPath flag = some w)
    (es : List Event) :
    (∀ err, (w.run es).loop.phase = .Compacting →
      ((w.run es).step (.gc (some err))).loop.phase = .Running ∧
      ((w.run es).step (.gc (some err))).loop.closes = 0 ∧
      ((w.run es).step (.gc (some err))).dbs.db.closed = false ∧
      ((w.run es).step (.gc (some err))).loop.gcCalls = (w.run es).loop.gcCalls ∧
      ((w.run es).step (.gc (some err))).dbs = (w.run es).dbs) ∧
    ((w.run es).loop.phase = .Compacting → (w.run es).ctx.done = false →
      ((w.run es).step (.gc none)).loop.phase = .Draining ∧
      (((w.run es).step (.gc none)).step .call).loop.phase = .Compacting ∧
      (((w.run es).step (.gc none)).step .call).loop.gcCalls
        = (w.run es).loop.gcCalls + 1) ∧
    (∀ n err, (w.run es).loop.phase = .Running → (w.run es).ctx.done = false →
      ((w.run es).run (drain n err)).loop.phase = .Running ∧
      ((w.run es).run (drain n err)).loop.gcCalls = (w.run es).loop.gcCalls + (n + 1) ∧
      ((w.run es).run (drain n err)).loop.closes = 0 ∧
      ((w.run es).run (drain n err)).dbs = (w.run es).dbs) ∧
    (ctx.done = false → Event.cancel ∉ es → (w.run es).loop.phase ≠ .Stopped) ∧
    ((w.run es).loop.phase = .Compacting → (w.run es).ctx.done = true →
      ((w.run es).step (.gc none)).loop.phase = .Stopped ∧
      ((w.run es).step (.gc none)).loop.gcCalls = (w.run es).loop.gcCalls) := by
  have hs := World.run_sound es w (boot_sound host ctx dirPath flag w hboot)
  refine ⟨?_, ?_, ?_, ?_, ?_⟩
  · intro err hp
    have ho := hs.1 (by simp [hp])
    simp [World.step, hp, DB.RunValueLogGC, ho.1, ho.2.1]
  · intro hp hd
    simp [World.step, hp, hd, DB.RunValueLogGC]
  · intro n err hp hd
    have ho := hs.1 (by simp [hp])
    have hrun : (w.run es).run (drain n err)
        = (((w.run es).step .tick).step .call).run (retries err n) := by
      simp [World.run, drain]
    have hp' : (((w.run es).step .tick).step .call).loop.phase = .Compacting := by
      simp [World.step, hp]
    have hd' : (((w.run es).step .tick).step .call).ctx.done = false := by
      simp [World.step, hp, hd]
    obtain ⟨h1, h2⟩ := World.run_retries err n _ hp' hd'
    rw [hrun, h1, h2]
    simp [World.step, hp, ho.1, hd]
    omega
  · intro hd hc hst
    have hctx := World.run_ctx es w hc
    have hw : w.ctx = ctx := by rw [boot_eq host ctx dirPath flag w hboot]
    have := (hs.2.1 hst).2.2
    rw [hctx, hw, hd] at this
    exact absurd this (by decide)
  · intro hp hd
    simp [World.step, hp, hd, DB.RunValueLogGC, World.exit]

/-- A drain on a fresh service: the tick, two successful passes, then
ErrNoRewrite.  Three calls, nothing closed, Running again, and afterwards the
service answers as before. -/
theorem gc_error_not_fatal_witness :
    ((freshWorld false).run (drain 2 .ErrNoRewrite)).loop.phase = .Running ∧
    ((freshWorld false).run (drain 2 .ErrNoRewrite)).loop.gcCalls = 0 + (2 + 1) ∧
    ((freshWorld false).run (drain 2 .ErrNoRewrite)).loop.closes = 0 ∧
    ((freshWorld false).run (drain 2 .ErrNoRewrite)).dbs = freshService false ∧
    ((freshWorld false).run [.tick, .call, .gc (some .ErrNoRewrite)]).loop.phase ≠ .Stopped :=
  ⟨((gc_error_not_fatal emptyHost ⟨false⟩ "/tmp/das" false (freshWorld false)
      (by decide) []).2.2.1 2 .ErrNoRewrite (by decide) (by decide)).1,
   ((gc_error_not_fatal emptyHost ⟨false⟩ "/tmp/das" false (freshWorld false)
      (by decide) []).2.2.1 2 .ErrNoRewrite (by decide) (by decide)).2.1,
   ((gc_error_not_fatal emptyHost ⟨false⟩ "/tmp/das" false (freshWorld false)
      (by decide) []).2.2.1 2 .ErrNoRewrite (by decide) (by decide)).2.2.1,
   ((gc_error_not_fatal emptyHost ⟨false⟩ "/tmp/das" false (freshWorld false)
      (by decide) []).2.2.1 2 .ErrNoRewrite (by decide) (by decide)).2.2.2,
   (gc_error_not_fatal emptyHost ⟨false⟩ "/tmp/das" false (freshWorld false)
      (by decide) [.tick, .call, .gc (some .ErrNoRewrite)]).2.2.2.1 rfl (by decide)⟩

/-- A tick taken under a cancelled context is a tick event after the
cancellation. -/
theorem World.step_lateTicks (w : World) (e : Event) :
    (w.step e).loop.lateTicks
      ≤ w.loop.lateTicks + (if e = .tick ∧ w.ctx.done = true then 1 else 0) := by
  cases e with
  | cancel => simp [World.step]
  | tick =>
    cases hp : w.loop.phase <;> by_cases hd : w.ctx.done = true <;>
      simp [World.step, hp, hd]
  | done =>
    cases hp : w.loop.phase <;> by_cases hd : w.ctx.done = true <;>
      simp [World.step, hp, hd, World.exit]
  | call => cases hp : w.loop.phase <;> simp [World.step, hp]
  | gc outcome =>
    cases hp : w.loop.phase <;> cases outcome <;> by_cases hd : w.ctx.done = true <;>
      simp [World.step, hp, hd, World.exit, DB.RunValueLogGC]
  | write c k v t => simp [World.step]
  | elapse d => simp [World.step]
  | fault f => simp [World.step]

/-- The ticks taken under a cancelled context are at most the tick events that
come after the cancellation. -/
theorem World.run_lateTicks (es : List Event) :
    ∀ (w : World),
      (w.run es).loop.lateTicks ≤ w.loop.lateTicks + ticksAfterCancel w.ctx.done es := by
  induction es with
  | nil => intro w; simp [World.run, ticksAfterCancel]
  | cons e es ih =>
    intro w
    have h1 := ih (w.step e)
    have h2 := w.step_lateTicks e
    have hrun : w.run (e :: es) = (w.step e).run es := rfl
    rw [hrun]
    cases e with
    | cancel =>
      have hc : (w.step .cancel).ctx.done = true := rfl
      rw [hc] at h1
      simp at h2
      simp only [ticksAfterCancel]
      omega
    | tick =>
      rw [w.step_ctx .tick (by simp)] at h1
      simp only [ticksAfterCancel]
      by_cases hd : w.ctx.done = true
      · simp [hd] at h1 h2 ⊢; omega
      · simp [hd] at h1 h2 ⊢; omega
    | done =>
      rw [w.step_ctx .done (by simp)] at h1
      simp at h2
      simp only [ticksAfterCancel]
      omega
    | call =>
      rw [w.step_ctx .call (by simp)] at h1
      simp at h2
      simp only [ticksAfterCancel]
      omega
    | gc outcome =>
      rw [w.step_ctx (.gc outcome) (by simp)] at h1
      simp at h2
      simp only [ticksAfterCancel]
      omega
    | write c k v t =>
      rw [w.step_ctx (.write c k v t) (by simp)] at h1
      simp at h2
      simp only [ticksAfterCancel]
      omega
    | elapse d =>
      rw [w.step_ctx (.elapse d) (by simp)] at h1
      simp at h2
      simp only [ticksAfterCancel]
      omega
    | fault f =>
      rw [w.step_ctx (.fault f) (by simp)] at h1
      simp at h2
      simp only [ticksAfterCancel]
      omega

/-- C7, as stated, fails: after the cancellation the outer select may still
take the ticker case when both cases are ready, and it may do so again after a
pass that returned an error.  In this run from a fresh construction every event
can happen in its turn; no call has been started when the context is cancelled;
two calls have been started at the end, both under the cancelled context; and
the goroutine has not stopped. -/
theorem late_ticks_start_two_calls :
    boot emptyHost ⟨false⟩ "/tmp/das" false = some (freshWorld false) ∧
    (freshWorld false).feasible
      [.cancel, .tick, .call, .gc (some .ErrNoRewrite), .tick, .call] = true ∧
    ((freshWorld false).run [.cancel]).ctx.done = true ∧
    ((freshWorld false).run [.cancel]).loop.gcCalls = 0 ∧
    ((freshWorld false).run
      [.cancel, .tick, .call, .gc (some .ErrNoRewrite), .tick, .call]).loop.gcCalls = 2 ∧
    ((freshWorld false).run
      [.cancel, .tick, .call, .gc (some .ErrNoRewrite), .tick, .call]).loop.lateCalls = 2 ∧
    ((freshWorld false).run
      [.cancel, .tick, .call, .gc (some .ErrNoRewrite), .tick, .call]).loop.phase
      = .Compacting := by
  decide

/-- C7, amended: after the cancellation the goroutine starts at most one
reclamation call, plus one for each tick its select still takes.  In every run
from a successful construction: the calls started under a cancelled context
are at most one more than the ticks taken under a cancelled context, which are
at most the tick events after the cancellation; and once the context is
cancelled, the ctx.Done case of the outer select stops a Running goroutine, a
goroutine at the loop condition starts one call, a successful pass stops a
Compacting goroutine without a further call whatever backlog remains, and a
failing pass returns it to the outer select without a further call. -/
theorem cancel_bounds_late_calls (host : Host) (ctx : Context) (dirPath : String)
    (flag : Bool) (w : World) (hboot : boot host ctx dirPath flag = some w)
    (es : List Event) :
    (w.run es).loop.lateCalls ≤ 1 + (w.run es).loop.lateTicks ∧
    (w.run es).loop.lateTicks ≤ ticksAfterCancel ctx.done es ∧
    (w.run es).loop.lateCalls ≤ 1 + ticksAfterCancel ctx.done es ∧
    ((w.run es).ctx.done = true →
      ((w.run es).loop.phase = .Running →
        ((w.run es).step .done).loop.phase = .Stopped ∧
        ((w.run es).step .done).loop.gcCalls = (w.run es).loop.gcCalls) ∧
      ((w.run es).loop.phase = .Draining →
        ((w.run es).step .call).loop.phase = .Compacting ∧
        ((w.run es).step .call).loop.gcCalls = (w.run es).loop.gcCalls + 1) ∧
      ((w.run es).loop.phase = .Compacting →
        ((w.run es).step (.gc none)).loop.phase = .Stopped ∧
        ((w.run es).step (.gc none)).loop.gcCalls = (w.run es).loop.gcCalls ∧
        ∀ err, ((w.run es).step (.gc (some err))).loop.phase = .Running ∧
          ((w.run es).step (.gc (some err))).loop.gcCalls = (w.run es).loop.gcCalls)) := by
  have hs := World.run_sound es w (boot_sound host ctx dirPath flag w hboot)
  have hcalls : (w.run es).loop.lateCalls ≤ 1 + (w.run es).loop.lateTicks := by
    have := hs.2.2.2
    omega
  have hticks : (w.run es).loop.lateTicks ≤ ticksAfterCancel ctx.done es := by
    have h := World.run_lateTicks es w
    have hl : w.loop.lateTicks = 0 := by rw [boot_eq host ctx dirPath flag w hboot]; rfl
    have hc : w.ctx = ctx := by rw [boot_eq host ctx dirPath flag w hboot]
    rw [hl, hc] at h
    omega
  refine ⟨hcalls, hticks, by omega, ?_⟩
  intro hd
  refine ⟨fun hp => ?_, fun hp => ?_, fun hp => ?_⟩
  · simp [World.step, hp, hd, World.exit]
  · simp [World.step, hp]
  · simp [World.step, hp, hd, World.exit, DB.RunValueLogGC]

/-- A cancellation between the tick and the call: the call is started after the
cancellation although no tick came after it, it is the only one, and when it
succeeds the goroutine stops. -/
theorem cancel_bounds_late_calls_witness :
    ((freshWorld false).run [.tick, .cancel, .call]).loop.lateCalls ≤ 1 + 0 ∧
    (((freshWorld false).run [.tick, .cancel, .call]).step (.gc none)).loop.phase
      = .Stopped ∧
    (((freshWorld false).run [.tick, .cancel, .call]).step (.gc none)).loop.gcCalls = 1 :=
  ⟨(cancel_bounds_late_calls emptyHost ⟨false⟩ "/tmp/das" false (freshWorld false)
      (by decide) [.tick, .cancel, .call]).2.2.1,
   (((cancel_bounds_late_calls emptyHost ⟨false⟩ "/tmp/das" false (freshWorld false)
      (by decide) [.tick, .cancel, .call]).2.2.2 (by decide)).2.2 (by decide)).1,
   (((cancel_bounds_late_calls emptyHost ⟨false⟩ "/tmp/das" false (freshWorld false)
      (by decide) [.tick, .cancel, .call]).2.2.2 (by decide)).2.2 (by decide)).2.1⟩

/-! ## Calls and the cancellation -/

/-- On an open handle Get returns. -/
theorem badger.Txn.Get_open (db : DB) (k : Bytes) (hc : db.closed = false) :
    ∃ r, (db.NewTransaction false).Get k = .ret r := by
  unfold Txn.Get
  simp only [DB.NewTransaction, hc, Bool.false_eq_true, if_false]
  split
  · exact ⟨_, rfl⟩
  · split
    · exact ⟨_, rfl⟩
    · exact ⟨_, rfl⟩

/-- On a closed handle Get returns no item: it rejects the empty key and
panics on every other. -/
theorem badger.Txn.Get_closed (db : DB) (k : Bytes) (hc : db.closed = true) (item : Item) :
    (db.NewTransaction false).Get k ≠ .ret (.ok item) := by
  unfold Txn.Get
  simp only [DB.NewTransaction, hc, if_true, Bool.false_eq_true, if_false]
  split <;> simp

/-- C4, as stated, fails: the calls do not look at any context.  On a fresh
construction, after a Write and the cancellation (the goroutine has not yet
taken the ctx.Done case), a Read given a cancelled context returns the value
and no error, a Write succeeds and a Sync succeeds.  And once the goroutine has
returned and closed the handle, a Sync still succeeds and the Read returns no
error: it panics. -/
theorem calls_served_after_cancel :
    boot emptyHost ⟨false⟩ "/tmp/das" false = some (freshWorld false) ∧
    (freshWorld false).feasible [.write ⟨false⟩ [107, 49] [118, 49] 0, .cancel, .done]
      = true ∧
    ((freshWorld false).run [.write ⟨false⟩ [107, 49] [118, 49] 0, .cancel]).ctx.done = true ∧
    ((freshWorld false).run [.write ⟨false⟩ [107, 49] [118, 49] 0, .cancel]).dbs.Read
      ⟨true⟩ [107, 49] = .ret (some [118, 49], none) ∧
    (((freshWorld false).run [.write ⟨false⟩ [107, 49] [118, 49] 0, .cancel]).dbs.Write
      ⟨true⟩ [107, 50] [118, 50] 0).2 = .ret none ∧
    ((freshWorld false).run [.write ⟨false⟩ [107, 49] [118, 49] 0, .cancel]).dbs.Sync
      ⟨true⟩ = none ∧
    closedService.Sync ⟨true⟩ = none ∧
    closedService.Read ⟨true⟩ [107, 49] = .panic := by
  decide

/-- C4, amended: the calls take no account of the cancellation; what changes
them is the goroutine closing the handle.  In every run from a successful
construction: Read, Write and Sync end the same whatever context they are
given; the cancellation alone leaves the service as it is; until the goroutine
is Stopped the handle is open and every Read and Write returns; and once the
goroutine is Stopped no Read returns a value and no Write returns success. -/
theorem calls_ignore_cancellation (host : Host) (ctx : Context) (dirPath : String)
    (flag : Bool) (w : World) (hboot : boot host ctx dirPath flag = some w)
    (es : List Event) :
    (∀ (c1 c2 : Context) (k v : Bytes) (t : Nat),
      (w.run es).dbs.Read c1 k = (w.run es).dbs.Read c2 k ∧
      (w.run es).dbs.Write c1 k v t = (w.run es).dbs.Write c2 k v t ∧
      (w.run es).dbs.Sync c1 = (w.run es).dbs.Sync c2) ∧
    ((w.run es).step .cancel).dbs = (w.run es).dbs ∧
    ((w.run es).loop.phase ≠ .Stopped →
      (w.run es).dbs.db.closed = false ∧
      ∀ (c : Context) (k v : Bytes) (t : Nat),
        (∃ r, (w.run es).dbs.Read c k = .ret r) ∧
        (∃ r, ((w.run es).dbs.Write c k v t).2 = .ret r)) ∧
    ((w.run es).loop.phase = .Stopped →
      ∀ (c : Context) (k v : Bytes) (t : Nat),
        (∀ b r, (w.run es).dbs.Read c k ≠ .ret (some b, r)) ∧
        ((w.run es).dbs.Write c k v t).2 ≠ .ret none) := by
  have hs := World.run_sound es w (boot_sound host ctx dirPath flag w hboot)
  refine ⟨fun c1 c2 k v t => ⟨rfl, rfl, rfl⟩, rfl, ?_, ?_⟩
  · intro hp
    obtain ⟨_, hc, hst⟩ := hs.1 hp
    refine ⟨hc, fun c k v t => ⟨?_, ?_⟩⟩
    · rw [DBStorageService.Read_eq]
      simp only [hst, Bool.false_eq_true, if_false]
      obtain ⟨r, hr⟩ := badger.Txn.Get_open (w.run es).dbs.db k hc
      rw [hr]
      cases r with
      | error err => exact ⟨_, rfl⟩
      | ok item => exact ⟨_, rfl⟩
    · rw [DBStorageService.Write_eq]
      simp only [hst, hc, Bool.false_eq_true, if_false]
      split
      · exact ⟨_, rfl⟩
      · split
        · exact ⟨_, rfl⟩
        · exact ⟨_, rfl⟩
  · intro hp c k v t
    have hc := (hs.2.1 hp).2.1
    refine ⟨fun b r => ?_, ?_⟩
    · rw [DBStorageService.Read_eq]
      split
      · simp
      · have hg := badger.Txn.Get_closed (w.run es).dbs.db k hc
        rcases hget : ((w.run es).dbs.db.NewTransaction false).Get k with (err | item) | _ | _
        · simp
        · exact absurd hget (hg item)
        · simp
        · simp
    · rw [DBStorageService.Write_eq]
      split
      · simp
      · split
        · simp
        · simp [hc]

/-- The run of the counterexample: between the cancellation and the close the
Read returns; after the close it returns no value. -/
theorem calls_ignore_cancellation_witness :
    (∃ r, ((freshWorld false).run
      [.write ⟨false⟩ [107, 49] [118, 49] 0, .cancel]).dbs.Read ⟨true⟩ [107, 49] = .ret r) ∧
    ((freshWorld false).run
      [.write ⟨false⟩ [107, 49] [118, 49] 0, .cancel, .done]).dbs.Read ⟨true⟩ [107, 49]
        ≠ .ret (some [118, 49], none) :=
  ⟨(((calls_ignore_cancellation emptyHost ⟨false⟩ "/tmp/das" false (freshWorld false)
      (by decide) [.write ⟨false⟩ [107, 49] [118, 49] 0, .cancel]).2.2.1 (by decide)).2
      ⟨true⟩ [107, 49] [] 0).1,
   (((calls_ignore_cancellation emptyHost ⟨false⟩ "/tmp/das" false (freshWorld false)
      (by decide) [.write ⟨false⟩ [107, 49] [118, 49] 0, .cancel, .done]).2.2.2 (by decide))
      ⟨true⟩ [107, 49] [] 0).1 [118, 49] none⟩

/-! ## Keys without a record -/

/-- An event that is not a Write of k adds no record of k. -/
theorem World.step_absent (k : Bytes) (w : World) (e : Event)
    (hw : ∀ x ∈ w.dbs.db.entries, x.key ≠ k)
    (he : ∀ c v t, e ≠ .write c k v t) :
    ∀ x ∈ (w.step e).dbs.db.entries, x.key ≠ k := by
  cases e with
  | cancel => exact hw
  | tick => cases hp : w.loop.phase <;> simpa [World.step, hp] using hw
  | done =>
    cases hp : w.loop.phase <;> by_cases hd : w.ctx.done = true <;>
      simpa [World.step, hp, hd, World.exit, DB.Close] using hw
  | call => cases hp : w.loop.phase <;> simpa [World.step, hp] using hw
  | gc outcome =>
    cases hp : w.loop.phase <;> cases outcome <;> by_cases hd : w.ctx.done = true <;>
      simpa [World.step, hp, hd, World.exit, DB.RunValueLogGC, DB.Close] using hw
  | write c k' v t =>
    have hk : k' ≠ k := fun h => he c v t (by rw [h])
    simp only [World.step, DBStorageService.Write_eq]
    split
    · exact hw
    · split
      · exact hw
      · split
        · exact hw
        · split
          · exact hw
          · intro x hx
            rcases List.mem_cons.mp hx with hx | hx
            · rw [hx]; exact hk
            · exact hw x hx
  | elapse d => exact hw
  | fault f => exact hw

/-- A run without a Write of k adds no record of k. -/
theorem World.run_absent (k : Bytes) (es : List Event) :
    ∀ (w : World), (∀ x ∈ w.dbs.db.entries, x.key ≠ k) →
      (∀ c v t, Event.write c k v t ∉ es) →
      ∀ x ∈ (w.run es).dbs.db.entries, x.key ≠ k := by
  induction es with
  | nil => intro w hw _; exact hw
  | cons e es ih =>
    intro w hw hes
    refine ih (w.step e) (World.step_absent k w e hw ?_) ?_
    · intro c v t heq
      exact hes c v t (heq ▸ List.mem_cons_self _ _)
    · intro c v t hm
      exact hes c v t (List.mem_cons_of_mem _ hm)

/-- C2, as stated, fails for the empty key: it has never been written (Write
rejects it), and a Read of it on a fresh handle fails with ErrEmptyKey, not
with the key-absent error.  And a key never written through the handle is
still found when the directory already held a record of it when the handle was
opened. -/
theorem read_of_empty_key :
    boot emptyHost ⟨false⟩ "/tmp/das" false = some (freshWorld false) ∧
    ((freshWorld false).dbs.Write ⟨false⟩ [] [118] 0).2 = .ret (some .ErrEmptyKey) ∧
    (freshWorld false).dbs.Read ⟨false⟩ [] = .ret (none, some .ErrEmptyKey) ∧
    (freshWorld false).dbs.Read ⟨false⟩ [] ≠ .ret (none, some .ErrKeyNotFound) ∧
    (boot usedHost ⟨false⟩ "/tmp/das" false).map (fun w => w.dbs.Read ⟨false⟩ [107, 49])
      = some (.ret (some [118, 49], none)) := by
  decide

/-- C2, amended to non-empty keys.  In every run from a successful
construction, for every non-empty key k with no record in the directory when it
was opened and no Write of k in the run (whatever other keys were written), as
long as the handle is open: Read(k) returns nil and ErrKeyNotFound; that error
is the very answer of the engine's Get; and Read returns no other error, so
none of the storage or handle failures. -/
theorem read_of_absent_key (host : Host) (ctx : Context) (dirPath : String)
    (flag : Bool) (w : World) (hboot : boot host ctx dirPath flag = some w)
    (es : List Event) (k : Bytes) (hk : k ≠ [])
    (hdir : ∀ x ∈ (host.dirs dirPath).entries, x.key ≠ k)
    (hes : ∀ c v t, Event.write c k v t ∉ es)
    (hopen : (w.run es).loop.phase ≠ .Stopped) (c : Context) :
    (w.run es).dbs.Read c k = .ret (none, some .ErrKeyNotFound) ∧
    ((w.run es).dbs.db.NewTransaction false).Get k = .ret (.error .ErrKeyNotFound) ∧
    (∀ err, err ≠ .ErrKeyNotFound → ∀ r, (w.run es).dbs.Read c k ≠ .ret (r, some err)) := by
  have hs := World.run_sound es w (boot_sound host ctx dirPath flag w hboot)
  obtain ⟨_, hc, hst⟩ := hs.1 hopen
  have hw : ∀ x ∈ w.dbs.db.entries, x.key ≠ k := by
    rw [boot_eq host ctx dirPath flag w hboot]; exact hdir
  have habs := World.run_absent k es w hw hes
  have hlen : k.length ≠ 0 := fun h => hk (List.length_eq_zero.mp h)
  have hget : ((w.run es).dbs.db.NewTransaction false).Get k
      = .ret (.error .ErrKeyNotFound) := by
    have hfind : ((w.run es).dbs.db.entries).find? (fun e => e.key == k) = none := by
      rw [List.find?_eq_none]
      intro x hx
      simpa using habs x hx
    simp [Txn.Get, DB.NewTransaction, hlen, hfind, hc]
  have hread : (w.run es).dbs.Read c k = .ret (none, some .ErrKeyNotFound) := by
    rw [DBStorageService.Read_eq, hget]; simp [hst]
  refine ⟨hread, hget, ?_⟩
  intro err herr r
  rw [hread]
  intro h
  injection h with h
  injection h with _ h
  injection h with h
  exact herr h.symm

/-- On a fresh handle, after a Write of k1, a tick and a failing pass, a Read
of another key fails with ErrKeyNotFound. -/
theorem read_of_absent_key_witness :
    ((freshWorld false).run
        [.write ⟨false⟩ [107, 49] [118, 49] 0, .tick, .call, .gc (some .ErrNoRewrite)]).dbs.Read
      ⟨false⟩ [109] = .ret (none, some .ErrKeyNotFound) :=
  (read_of_absent_key emptyHost ⟨false⟩ "/tmp/das" false (freshWorld false) (by decide)
    [.write ⟨false⟩ [107, 49] [118, 49] 0, .tick, .call, .gc (some .ErrNoRewrite)] [109]
    (by decide) (by intro x hx; cases hx)
    (by intro c v t h; simp at h) (by decide) ⟨false⟩).1

/-! ## Retention -/

/-- C3 on the code: with discard-on-timeout set, a record written with a
retention of one second is still returned after two seconds, although the
engine expires a record that carries its expiry: Write stores none. -/
theorem expired_record_still_read :
    boot emptyHost ⟨false⟩ "/tmp/das" true = some (freshWorld true) ∧
    ((freshWorld true).dbs.Write ⟨false⟩ [107] [118] 1).2 = .ret none ∧
    ((freshWorld true).run [.write ⟨false⟩ [107] [118] 1, .elapse 2]).dbs.Read ⟨false⟩ [107]
      = .ret (some [118], none) ∧
    ((((freshWorld true).dbs.db.Update
        (fun txn => txn.SetEntry ((NewEntry [107] [118]).WithTTL 1000 1))).1.elapse
          2).NewTransaction false).Get [107] = .ret (.error .ErrKeyNotFound) :=
  ⟨by decide, by decide, by decide, rfl⟩
